import Mathlib

/-!
Verification of the code-quality analyzer in hgit474/ollama.

The development shallowly embeds the two source files:
* `src/backend/server.js` — the static analyzer `analyzeCode`, the AI rewrite
  helper `generateAIFixedCode`, and the `POST /analyze` request handler;
* `src/frontend/script.js` — the regex-based line-number re-parser
  `getErroredLineNumbers` and the session-log `addReport`.

JavaScript strings are modelled as Lean `String`s (their character lists);
the JS string methods used by the source (`trim`, `includes`, `startsWith`,
`split('\n')`, `join('\n')`, template literals) are embedded as explicit
functions over `List Char` so that everything reduces in the kernel.
-/

namespace CodeQuality

/-- The whitespace class removed by JavaScript's `String.prototype.trim`
(ASCII part: space, tab, line feed, carriage return, vertical tab, form feed). -/
def jsWhitespaceChar (c : Char) : Bool :=
  c == ' ' || c == '\t' || c == '\n' || c == '\r' || c == '\x0b' || c == '\x0c'

/-- JavaScript `s.trim()`: drop leading and trailing whitespace. -/
def jsTrim (s : String) : String :=
  String.mk (((s.data.dropWhile jsWhitespaceChar).reverse.dropWhile jsWhitespaceChar).reverse)

/-- Substring search on character lists: `listIncludes pat l` is true iff `pat`
occurs contiguously inside `l` (the semantics of JS `l.includes(pat)`). -/
def listIncludes (pat : List Char) : List Char → Bool
  | [] => pat.isPrefixOf ([] : List Char)
  | c :: rest => pat.isPrefixOf (c :: rest) || listIncludes pat rest

/-- JavaScript `s.includes(pat)`. -/
def jsIncludes (s pat : String) : Bool :=
  listIncludes pat.data s.data

/-- JavaScript `s.startsWith(pat)`. -/
def jsStartsWith (s pat : String) : Bool :=
  pat.data.isPrefixOf s.data

/-- JavaScript `s.split('\n')` on the character list: one piece per newline
character, so the result has one more piece than the string has newlines and
is `[[]]` on the empty string. -/
def splitChNl : List Char → List (List Char)
  | [] => [[]]
  | c :: rest =>
    match splitChNl rest with
    | [] => [[]]
    | piece :: pieces =>
      if c == '\n' then [] :: piece :: pieces else (c :: piece) :: pieces

/-- JavaScript `code.split('\n')`. -/
def splitOnNewline (s : String) : List String :=
  (splitChNl s.data).map String.mk

/-- JavaScript `lines.join('\n')`. -/
def joinNewline : List String → String
  | [] => ""
  | [s] => s
  | s :: rest => s ++ "\n" ++ joinNewline rest

/-- One reported finding, as pushed onto `issues` by `analyzeCode`
(`src/backend/server.js`). -/
structure Issue where
  type : String
  title : String
  message : String
deriving DecidableEq, Repr

/-- The value returned by `analyzeCode`: severity counters, `total` set to
`issues.length` at construction, and the ordered issue list. -/
structure Report where
  warnings : Nat
  suggestions : Nat
  total : Nat
  issues : List Issue
deriving DecidableEq, Repr

/-- Rule 1's issue (TODO comment, `server.js` lines 60-67). -/
def todoIssue (lineNumber : Nat) : Issue :=
  { type := "warning"
    title := "TODO comment found"
    message := "Line " ++ Nat.repr lineNumber ++ ": Consider resolving or removing TODOs before release." }

/-- Rule 2's issue (long line, `server.js` lines 70-77). -/
def longLineIssue (lineNumber : Nat) : Issue :=
  { type := "suggestion"
    title := "Line too long"
    message := "Line " ++ Nat.repr lineNumber ++ ": Break this line into smaller parts for readability." }

/-- Rule 3's issue (loose equality, `server.js` lines 80-87). -/
def looseEqIssue (lineNumber : Nat) : Issue :=
  { type := "warning"
    title := "Loose equality operator"
    message := "Line " ++ Nat.repr lineNumber ++ ": Use '===' instead of '==' to avoid unexpected type coercion." }

/-- Rule 4's issue (debug statement, `server.js` lines 90-97). -/
def debugIssue (lineNumber : Nat) : Issue :=
  { type := "suggestion"
    title := "Debug statement"
    message := "Line " ++ Nat.repr lineNumber ++ ": Remove debug prints/logs in production code." }

/-- The body of the `lines.forEach` loop of `analyzeCode` for one line: the
issues this line pushes (in rule order 1-4) together with how much the line
adds to the `warnings` and `suggestions` counters. The source mutates shared
accumulators; since each rule only pushes one issue and increments one
counter, the loop body is equivalently the per-line delta combined by
concatenation / addition in `analyzeLines`. -/
def processLine (language : String) (lineNumber : Nat) (line : String) :
    List Issue × Nat × Nat :=
  let trimmed := jsTrim line
  let todoPart : List Issue × Nat × Nat :=
    if jsIncludes trimmed "TODO" then ([todoIssue lineNumber], 1, 0) else ([], 0, 0)
  let longPart : List Issue × Nat × Nat :=
    if line.length > 100 then ([longLineIssue lineNumber], 0, 1) else ([], 0, 0)
  let loosePart : List Issue × Nat × Nat :=
    if language == "javascript" && jsIncludes trimmed "==" && !jsIncludes trimmed "===" then
      ([looseEqIssue lineNumber], 1, 0)
    else ([], 0, 0)
  let debugPart : List Issue × Nat × Nat :=
    if jsStartsWith trimmed "print(" || jsIncludes trimmed "console.log" then
      ([debugIssue lineNumber], 0, 1)
    else ([], 0, 0)
  (todoPart.1 ++ longPart.1 ++ loosePart.1 ++ debugPart.1,
   todoPart.2.1 + longPart.2.1 + loosePart.2.1 + debugPart.2.1,
   todoPart.2.2 + longPart.2.2 + loosePart.2.2 + debugPart.2.2)

/-- The `lines.forEach` loop of `analyzeCode`: process the lines in order,
numbering them from `lineNumber` (the loop starts at 1), collecting issues in
order and summing the counter increments. -/
def analyzeLines (language : String) : Nat → List String → List Issue × Nat × Nat
  | _, [] => ([], 0, 0)
  | lineNumber, line :: rest =>
    let here := processLine language lineNumber line
    let later := analyzeLines language (lineNumber + 1) rest
    (here.1 ++ later.1, here.2.1 + later.2.1, here.2.2 + later.2.2)

/-- `analyzeCode(code, language)` from `src/backend/server.js` lines 49-106:
split on newline, run the four rules over every line, and return
`{ warnings, suggestions, total: issues.length, issues }`. -/
def analyzeCode (code language : String) : Report :=
  let res := analyzeLines language 1 (splitOnNewline code)
  { warnings := res.2.1, suggestions := res.2.2, total := res.1.length, issues := res.1 }

/-- A JSON-ish JavaScript value, as a field of the parsed request body can be
after `const { code, language } = req.body`. `num` models JS numbers by
integers (enough for the truthiness and method-lookup behaviour the handler
exercises); `obj` stands for any object or array value (always truthy, has no
`split` method). -/
inductive JsValue where
  | undefined
  | null
  | bool (b : Bool)
  | num (n : Int)
  | str (s : String)
  | obj
deriving DecidableEq, Repr

/-- JavaScript truthiness test `!v` used by the boundary check
`if (!code || !language)`: `undefined`, `null`, `false`, `0` and `""` are
falsy, everything else is truthy. -/
def JsValue.falsy : JsValue → Bool
  | .undefined => true
  | .null => true
  | .bool b => !b
  | .num n => n == 0
  | .str s => s == ""
  | .obj => false

/-- The `language` value as it behaves inside `analyzeCode`: it is only ever
compared with `=== "javascript"`, so a non-string value acts exactly like a
string different from "javascript" (here ""). -/
def JsValue.asLanguageTag : JsValue → String
  | .str s => s
  | _ => ""

/-- Outcome of the external Gemini collaborator for one request:
`unavailable` models `ai === null` (client failed to initialize), `failure`
models the awaited `generateContent` call throwing, `success text` models a
response whose `.text` is `text`. -/
inductive AIOutcome where
  | unavailable
  | failure
  | success (text : String)
deriving DecidableEq, Repr

/-- The loop of the `extractCodeBlock` helper inside `generateAIFixedCode`
(`server.js` lines 149-167): scan the lines; a trimmed line starting with the
markdown fence toggles into the code block (the fence line is skipped) and a
second fence line breaks out; lines seen while inside are collected. -/
def extractLoop (inCodeBlock : Bool) : List String → List String
  | [] => []
  | line :: rest =>
    if jsStartsWith (jsTrim line) "```" then
      if inCodeBlock then []
      else extractLoop true rest
    else if inCodeBlock then line :: extractLoop inCodeBlock rest
    else extractLoop inCodeBlock rest

/-- `extractCodeBlock(text)`: collect the first fenced block's lines, join
them with newlines and trim. -/
def extractCodeBlock (text : String) : String :=
  jsTrim (joinNewline (extractLoop false (splitOnNewline text)))

/-- `generateAIFixedCode(code, language)` from `server.js` lines 117-175,
with the network call abstracted into an `AIOutcome`: `null` when the client
is uninitialized or the call throws (the `catch` branch), otherwise the code
block extracted from the response text. The `code` and `language` arguments
only shape the prompt, so they do not influence the modelled result. -/
def generateAIFixedCode (code language : String) (outcome : AIOutcome) : Option String :=
  match code, language, outcome with
  | _, _, .unavailable => none
  | _, _, .failure => none
  | _, _, .success text => some (extractCodeBlock text)

/-- What the `POST /analyze` handler does with one request: reply 400 with an
error message, reply 200 with the report and `suggested_code`, or raise an
uncaught exception (no well-formed reply is produced in that case). -/
inductive HandlerResult where
  | badRequest (error : String)
  | ok (report : Report) (suggested_code : Option String)
  | thrown (message : String)
deriving DecidableEq, Repr

/-- The `POST /analyze` handler (`server.js` lines 181-201): destructure
`code` and `language` from the body, reject falsy values with a 400, run
`analyzeCode`, then the AI helper, and reply with the spread report plus
`suggested_code`. A truthy non-string `code` passes the boundary check and
then `code.split('\n')` raises a `TypeError`. -/
def handleAnalyze (code language : JsValue) (outcome : AIOutcome) : HandlerResult :=
  if code.falsy || language.falsy then
    .badRequest "Missing 'code' or 'language' in request body."
  else
    match code with
    | .str s =>
      let analysisResponse := analyzeCode s language.asLanguageTag
      let suggestedCode := generateAIFixedCode s language.asLanguageTag outcome
      .ok analysisResponse suggestedCode
    | _ => .thrown "TypeError: code.split is not a function"

/-- The digit matched by the regex class `\d`. -/
def jsDigitChar (c : Char) : Bool :=
  c.isDigit

/-- The whitespace matched by the regex class `\s` (ASCII part). -/
def jsRegexSpace (c : Char) : Bool :=
  jsWhitespaceChar c

/-- `parseInt(digits, 10)` on a run of decimal digit characters. -/
def digitsVal (ds : List Char) : Nat :=
  ds.foldl (fun a c => 10 * a + (c.toNat - 48)) 0

/-- Matching the regex `/Line\s+(\d+)\s*:/i` at the head of `cs`: the literal
`Line` case-insensitively, one or more whitespace, a maximal digit run
(the capture, parsed by `parseInt`), optional whitespace, then a colon.
Greedy matching without backtracking agrees with the regex here because the
`\s`, `\d` and `:` character classes are pairwise disjoint. -/
def matchAt (cs : List Char) : Option Nat :=
  match cs with
  | c1 :: c2 :: c3 :: c4 :: rest =>
    if c1.toLower == 'l' && c2.toLower == 'i' && c3.toLower == 'n' && c4.toLower == 'e' then
      let ws := rest.takeWhile jsRegexSpace
      let afterWs := rest.dropWhile jsRegexSpace
      let ds := afterWs.takeWhile jsDigitChar
      let afterDs := afterWs.dropWhile jsDigitChar
      let afterWs2 := afterDs.dropWhile jsRegexSpace
      if ws.isEmpty || ds.isEmpty then none
      else
        match afterWs2 with
        | ':' :: _ => some (digitsVal ds)
        | _ => none
    else none
  | _ => none

/-- `message.match(/Line\s+(\d+)\s*:/i)`: try the pattern at each position
from the left and return the first capture, parsed. -/
def scanLineNum : List Char → Option Nat
  | [] => none
  | c :: rest =>
    match matchAt (c :: rest) with
    | some n => some n
    | none => scanLineNum rest

/-- The line number the frontend recovers from one issue message, if any. -/
def firstLineNum (s : String) : Option Nat :=
  scanLineNum s.data

/-- De-duplication in first-occurrence order, as a JS `Set` fed by a loop and
read back with `Array.from`. -/
def dedupFirstAux (seen : List Nat) : List Nat → List Nat
  | [] => []
  | n :: rest => if n ∈ seen then dedupFirstAux seen rest else n :: dedupFirstAux (n :: seen) rest

/-- See `dedupFirstAux`. -/
def dedupFirst (l : List Nat) : List Nat :=
  dedupFirstAux [] l

/-- `getErroredLineNumbers(issues)` from `src/frontend/script.js` lines
110-124: run the regex over each issue's message, collect the parsed numbers
into a `Set`, return them as an array (insertion order). -/
def getErroredLineNumbers (issues : List Issue) : List Nat :=
  dedupFirst (issues.filterMap (fun i => firstLineNum i.message))

/-- One row of the frontend's session log (`script.js` lines 230-243). The
`?? 0` defaults in the source never fire here because `Report` always carries
its three counters. -/
structure SessionRecord where
  timestamp : String
  language : String
  total : Nat
  warnings : Nat
  suggestions : Nat
deriving DecidableEq, Repr

/-- `addReport(language, result)`: `reports.unshift({...})` prepends the new
record to the log. -/
def addReport (timestamp language : String) (result : Report) (reports : List SessionRecord) :
    List SessionRecord :=
  { timestamp := timestamp
    language := language
    total := result.total
    warnings := result.warnings
    suggestions := result.suggestions } :: reports

/-- The session log after a sequence of successful analyses
`(timestamp, language, report)`, processed oldest first, starting empty. -/
def recordAll (analyses : List (String × String × Report)) : List SessionRecord :=
  analyses.foldl (fun reports a => addReport a.1 a.2.1 a.2.2 reports) []

/-- The ten decimal digit characters. -/
def digitChars : List Char :=
  ['0', '1', '2', '3', '4', '5', '6', '7', '8', '9']

/-- The big-endian decimal digit characters of a natural number: the
reference rendering that `Nat.repr` (and hence the JS template literal
`Line N:`) produces. -/
def decDigits (n : Nat) : List Char :=
  if _h : n < 10 then [Nat.digitChar n]
  else decDigits (n / 10) ++ [Nat.digitChar (n % 10)]
decreasing_by exact Nat.div_lt_self (by omega) (by omega)

/-! ## Counting invariants -/

lemma processLine_counts (language : String) (lineNumber : Nat) (line : String) :
    ((processLine language lineNumber line).1.countP (fun i => i.type == "warning") =
        (processLine language lineNumber line).2.1) ∧
    ((processLine language lineNumber line).1.countP (fun i => i.type == "suggestion") =
        (processLine language lineNumber line).2.2) ∧
    ((processLine language lineNumber line).1.length =
        (processLine language lineNumber line).2.1 + (processLine language lineNumber line).2.2) := by
  simp only [processLine]
  split_ifs <;>
    simp [todoIssue, longLineIssue, looseEqIssue, debugIssue, List.countP_cons, List.countP_append]

lemma analyzeLines_counts (language : String) (lines : List String) : ∀ (n : Nat),
    ((analyzeLines language n lines).1.countP (fun i => i.type == "warning") =
        (analyzeLines language n lines).2.1) ∧
    ((analyzeLines language n lines).1.countP (fun i => i.type == "suggestion") =
        (analyzeLines language n lines).2.2) ∧
    ((analyzeLines language n lines).1.length =
        (analyzeLines language n lines).2.1 + (analyzeLines language n lines).2.2) := by
  induction lines with
  | nil => intro n; simp [analyzeLines]
  | cons line rest ih =>
    intro n
    have h := processLine_counts language n line
    have h2 := ih (n + 1)
    simp only [analyzeLines, List.countP_append, List.length_append]
    omega

/-- C1: for every code and language, the report of `analyzeCode` has
`total = issues.length` and `total = warnings + suggestions`, where the
`warnings` and `suggestions` counters are exactly the numbers of issues
whose `type` is "warning" resp. "suggestion". -/
theorem analyzeCode_total_counts (code language : String) :
    ((analyzeCode code language).total = (analyzeCode code language).issues.length) ∧
    ((analyzeCode code language).warnings =
        (analyzeCode code language).issues.countP (fun i => i.type == "warning")) ∧
    ((analyzeCode code language).suggestions =
        (analyzeCode code language).issues.countP (fun i => i.type == "suggestion")) ∧
    ((analyzeCode code language).total =
        (analyzeCode code language).warnings + (analyzeCode code language).suggestions) := by
  have h := analyzeLines_counts language (splitOnNewline code) 1
  exact ⟨rfl, h.1.symm, h.2.1.symm, h.2.2⟩

/-! ## Session log -/

lemma recordAll_aux (analyses : List (String × String × Report)) :
    ∀ (acc : List SessionRecord),
      analyses.foldl (fun reports a => addReport a.1 a.2.1 a.2.2 reports) acc =
        (analyses.map (fun a =>
          { timestamp := a.1, language := a.2.1, total := a.2.2.total,
            warnings := a.2.2.warnings, suggestions := a.2.2.suggestions : SessionRecord })).reverse
          ++ acc := by
  induction analyses with
  | nil => intro acc; simp
  | cons a rest ih =>
    intro acc
    rw [List.foldl_cons, ih]
    simp [addReport, List.append_assoc]

/-- C10: recording prepends, so after N successful analyses (oldest first)
the session log holds exactly the N corresponding records in
most-recent-first order, each carrying the language of its analysis and the
`total`, `warnings` and `suggestions` counts copied from its report. -/
theorem session_log_most_recent_first (analyses : List (String × String × Report)) :
    (recordAll analyses =
      (analyses.map (fun a =>
        { timestamp := a.1, language := a.2.1, total := a.2.2.total,
          warnings := a.2.2.warnings, suggestions := a.2.2.suggestions : SessionRecord })).reverse) ∧
    (recordAll analyses).length = analyses.length := by
  have h := recordAll_aux analyses []
  constructor
  · simpa [recordAll] using h
  · simp [recordAll, h]

/-! ## The individual rules -/

/-- C6: a line emits an issue titled "Line too long" exactly when its raw
(untrimmed) length exceeds 100 characters, that issue is the single
`suggestion` `longLineIssue` for the line, and concretely a line of 101
characters emits one while a line of exactly 100 characters emits none. -/
theorem long_line_rule (language : String) (lineNumber : Nat) (line : String) :
    ((processLine language lineNumber line).1.filter
        (fun i => i.title == "Line too long") =
      (if 100 < line.length then [longLineIssue lineNumber] else [])) ∧
    (longLineIssue lineNumber).type = "suggestion" ∧
    ((processLine "python" 7 (String.mk (List.replicate 101 'x'))).1.filter
        (fun i => i.title == "Line too long") = [longLineIssue 7]) ∧
    ((processLine "python" 7 (String.mk (List.replicate 100 'x'))).1.filter
        (fun i => i.title == "Line too long") = []) := by
  refine ⟨?_, rfl, by decide, by decide⟩
  simp only [processLine]
  split_ifs <;>
    simp [todoIssue, longLineIssue, looseEqIssue, debugIssue]

/-- C7: a line emits an issue titled "Loose equality operator" exactly when
the language is "javascript" and the trimmed line contains "==" but not
"===" as a substring; that issue is the single `warning` `looseEqIssue` for
the line. Concretely, with language "javascript" the line "if (a == b)"
emits one and "if (a === b)" does not, and with language "python" the line
"if (a == b)" does not. -/
theorem loose_equality_rule (language : String) (lineNumber : Nat) (line : String) :
    ((processLine language lineNumber line).1.filter
        (fun i => i.title == "Loose equality operator") =
      (if language == "javascript" && jsIncludes (jsTrim line) "==" &&
          !jsIncludes (jsTrim line) "===" then
        [looseEqIssue lineNumber] else [])) ∧
    (looseEqIssue lineNumber).type = "warning" ∧
    ((processLine "javascript" 1 "if (a == b)").1.filter
        (fun i => i.title == "Loose equality operator") = [looseEqIssue 1]) ∧
    ((processLine "javascript" 1 "if (a === b)").1.filter
        (fun i => i.title == "Loose equality operator") = []) ∧
    ((processLine "python" 1 "if (a == b)").1.filter
        (fun i => i.title == "Loose equality operator") = []) := by
  refine ⟨?_, rfl, by decide, by decide, by decide⟩
  simp only [processLine]
  split_ifs <;>
    simp [todoIssue, longLineIssue, looseEqIssue, debugIssue]

/-- C8: a line emits an issue titled "Debug statement" exactly when its
trimmed form starts with "print(" (prefix-anchored) or contains
"console.log" anywhere (substring); that issue is the single `suggestion`
`debugIssue` for the line. Concretely "print(x)" and "  console.log(x)"
each emit one, while "x = print(y)" emits none — in particular it fails the
prefix check. -/
theorem debug_statement_rule (language : String) (lineNumber : Nat) (line : String) :
    ((processLine language lineNumber line).1.filter
        (fun i => i.title == "Debug statement") =
      (if jsStartsWith (jsTrim line) "print(" || jsIncludes (jsTrim line) "console.log" then
        [debugIssue lineNumber] else [])) ∧
    (debugIssue lineNumber).type = "suggestion" ∧
    ((processLine "python" 1 "print(x)").1.filter
        (fun i => i.title == "Debug statement") = [debugIssue 1]) ∧
    ((processLine "javascript" 1 "  console.log(x)").1.filter
        (fun i => i.title == "Debug statement") = [debugIssue 1]) ∧
    ((processLine "python" 1 "x = print(y)").1.filter
        (fun i => i.title == "Debug statement") = []) ∧
    jsStartsWith (jsTrim "x = print(y)") "print(" = false := by
  refine ⟨?_, rfl, by decide, by decide, by decide, by decide⟩
  simp only [processLine]
  split_ifs <;>
    simp [todoIssue, longLineIssue, looseEqIssue, debugIssue]

/-! ## The request boundary and the collaborator -/

/-- C2, counterexample: a request whose `code` is the empty string is NOT
accepted at the boundary — `""` is falsy in JavaScript, so `!code` is true
and the handler replies 400 instead of producing a report. -/
theorem empty_code_rejected_at_boundary :
    handleAnalyze (.str "") (.str "javascript") .unavailable =
      .badRequest "Missing 'code' or 'language' in request body." := by
  decide

/-- C2, amended: a request with `code == ""` is rejected by the boundary
check (the empty string is falsy), whatever the language and collaborator
outcome; nevertheless the analyzer itself accepts the empty string and
yields a report with `total = 0` and no issues, for every language. -/
theorem empty_code_boundary_and_analysis (language : JsValue) (outcome : AIOutcome)
    (tag : String) :
    (handleAnalyze (.str "") language outcome =
      .badRequest "Missing 'code' or 'language' in request body.") ∧
    (analyzeCode "" tag).total = 0 ∧ (analyzeCode "" tag).issues = [] := by
  have h1 : jsIncludes (jsTrim "") "TODO" = false := by decide
  have h2 : jsIncludes (jsTrim "") "==" = false := by decide
  have h3 : (jsStartsWith (jsTrim "") "print(" || jsIncludes (jsTrim "") "console.log") = false := by
    decide
  have h0 : splitOnNewline "" = [""] := by decide
  have hpl : ∀ t : String, processLine t 1 "" = ([], 0, 0) := by
    intro t
    simp [processLine, h1, h2, h3]
  refine ⟨?_, ?_, ?_⟩
  · simp [handleAnalyze, JsValue.falsy]
  · simp [analyzeCode, h0, analyzeLines, hpl]
  · simp [analyzeCode, h0, analyzeLines, hpl]

/-- C3, counterexample: a truthy non-string `code` (the number 42) passes
the `!code || !language` boundary check, and then `code.split('\n')` inside
`analyzeCode` raises a `TypeError` — the request neither gets a validation
error nor a report. -/
theorem nonstring_code_throws :
    handleAnalyze (.num 42) (.str "javascript") .unavailable =
      .thrown "TypeError: code.split is not a function" := by
  decide

/-- C3, amended: for every request body in which the `code` field is a
string or falsy (the `language` field and the collaborator outcome being
arbitrary), the handler either rejects at the boundary with a validation
error or runs the analysis to completion and replies with a report — it
never raises. Truthy non-string `code` values are the exception documented
by the counterexample. -/
theorem handler_totality_for_string_code (code language : JsValue) (outcome : AIOutcome)
    (h : code.falsy = true ∨ ∃ s, code = .str s) :
    (∃ e, handleAnalyze code language outcome = .badRequest e) ∨
    (∃ report sc, handleAnalyze code language outcome = .ok report sc) := by
  rcases h with hf | ⟨s, rfl⟩
  · exact Or.inl ⟨"Missing 'code' or 'language' in request body.", by simp [handleAnalyze, hf]⟩
  · by_cases hb : ((JsValue.str s).falsy || language.falsy) = true
    · exact Or.inl ⟨"Missing 'code' or 'language' in request body.", by simp [handleAnalyze, hb]⟩
    · exact Or.inr ⟨analyzeCode s language.asLanguageTag,
        generateAIFixedCode s language.asLanguageTag outcome, by simp [handleAnalyze, hb]⟩

/-- Witness for `handler_totality_for_string_code` at a concrete request. -/
theorem handler_totality_for_string_code_witness :
    (∃ e, handleAnalyze (.str "print(x)") (.str "python") .unavailable = .badRequest e) ∨
    (∃ report sc, handleAnalyze (.str "print(x)") (.str "python") .unavailable = .ok report sc) :=
  handler_totality_for_string_code (.str "print(x)") (.str "python") .unavailable
    (Or.inr ⟨"print(x)", rfl⟩)

/-- C4: a request missing `code` or missing `language` (the destructured
field is `undefined`) is rejected with the 400 validation error, whose
message names both field identifiers, and no report is produced. -/
theorem missing_fields_rejected (code language : JsValue) (outcome : AIOutcome)
    (h : code = .undefined ∨ language = .undefined) :
    handleAnalyze code language outcome =
      .badRequest "Missing 'code' or 'language' in request body." ∧
    jsIncludes "Missing 'code' or 'language' in request body." "'code'" = true ∧
    jsIncludes "Missing 'code' or 'language' in request body." "'language'" = true := by
  refine ⟨?_, by decide, by decide⟩
  rcases h with rfl | rfl
  · simp [handleAnalyze, JsValue.falsy]
  · simp [handleAnalyze, JsValue.falsy]

/-- Witness for `missing_fields_rejected`: a request with no `code` field. -/
theorem missing_fields_rejected_witness :
    handleAnalyze .undefined (.str "javascript") .unavailable =
      .badRequest "Missing 'code' or 'language' in request body." ∧
    jsIncludes "Missing 'code' or 'language' in request body." "'code'" = true ∧
    jsIncludes "Missing 'code' or 'language' in request body." "'language'" = true :=
  missing_fields_rejected .undefined (.str "javascript") .unavailable (Or.inl rfl)

/-- C5: when the collaborator fails (client uninitialized, or the call
throws), a request that passes the boundary still succeeds with the full
static-analysis report and `suggested_code = none`; moreover for every
collaborator outcome the reply carries the very same report, so a
collaborator failure never alters the issues or the counts. -/
theorem collaborator_failure_still_succeeds (code language : String) (outcome : AIOutcome)
    (hc : code ≠ "") (hl : language ≠ "")
    (hfail : outcome = .unavailable ∨ outcome = .failure) :
    (handleAnalyze (.str code) (.str language) outcome =
      .ok (analyzeCode code language) none) ∧
    ∀ (outcome2 : AIOutcome), ∃ sc,
      handleAnalyze (.str code) (.str language) outcome2 = .ok (analyzeCode code language) sc := by
  have hb : ((JsValue.str code).falsy || (JsValue.str language).falsy) = false := by
    simp [JsValue.falsy, hc, hl]
  constructor
  · rcases hfail with rfl | rfl <;>
      simp [handleAnalyze, hb, JsValue.asLanguageTag, generateAIFixedCode]
  · intro outcome2
    refine ⟨generateAIFixedCode code language outcome2, ?_⟩
    simp [handleAnalyze, hb, JsValue.asLanguageTag]

/-- Witness for `collaborator_failure_still_succeeds`: the Gemini call
throws on a request analyzing "print(x)" as python. -/
theorem collaborator_failure_still_succeeds_witness :
    (handleAnalyze (.str "print(x)") (.str "python") .failure =
      .ok (analyzeCode "print(x)" "python") none) ∧
    ∀ (outcome2 : AIOutcome), ∃ sc,
      handleAnalyze (.str "print(x)") (.str "python") outcome2 =
        .ok (analyzeCode "print(x)" "python") sc :=
  collaborator_failure_still_succeeds "print(x)" "python" .failure
    (by decide) (by decide) (Or.inr rfl)

/-! ## Decimal rendering of line numbers -/

lemma digitChar_mem {k : Nat} (h : k < 10) : Nat.digitChar k ∈ digitChars := by
  interval_cases k <;> decide

lemma digitChar_val {k : Nat} (h : k < 10) : (Nat.digitChar k).toNat - 48 = k := by
  interval_cases k <;> decide

lemma digitChars_isDigit {c : Char} (h : c ∈ digitChars) : jsDigitChar c = true := by
  fin_cases h <;> decide

lemma digitChars_not_space {c : Char} (h : c ∈ digitChars) : jsRegexSpace c = false := by
  fin_cases h <;> decide

lemma decDigits_ne_nil (n : Nat) : decDigits n ≠ [] := by
  rw [decDigits]
  split <;> simp

lemma decDigits_mem (n : Nat) : ∀ c ∈ decDigits n, c ∈ digitChars := by
  induction n using Nat.strong_induction_on with
  | _ n ih =>
    rw [decDigits]
    split
    · next h => intro c hc; rw [List.mem_singleton] at hc; subst hc; exact digitChar_mem h
    · next h =>
      intro c hc
      rw [List.mem_append, List.mem_singleton] at hc
      rcases hc with hc | hc
      · exact ih (n / 10) (Nat.div_lt_self (by omega) (by omega)) c hc
      · subst hc; exact digitChar_mem (Nat.mod_lt _ (by omega))

lemma digitsVal_decDigits (n : Nat) : digitsVal (decDigits n) = n := by
  induction n using Nat.strong_induction_on with
  | _ n ih =>
    rw [decDigits]
    split
    · next h =>
      simp only [digitsVal, List.foldl_cons, List.foldl_nil, Nat.mul_zero, Nat.zero_add]
      exact digitChar_val h
    · next h =>
      have hdiv := ih (n / 10) (Nat.div_lt_self (by omega) (by omega))
      simp only [digitsVal, List.foldl_append, List.foldl_cons, List.foldl_nil] at hdiv ⊢
      rw [hdiv, digitChar_val (Nat.mod_lt _ (by omega))]
      omega

lemma toDigitsCore_eq (fuel : Nat) : ∀ (n : Nat) (ds : List Char), n < fuel →
    Nat.toDigitsCore 10 fuel n ds = decDigits n ++ ds := by
  induction fuel with
  | zero => intro n ds h; omega
  | succ fuel ih =>
    intro n ds h
    rw [Nat.toDigitsCore]
    by_cases h10 : n < 10
    · have hz : n / 10 = 0 := Nat.div_eq_of_lt h10
      have hm : n % 10 = n := Nat.mod_eq_of_lt h10
      simp only [hz, hm, if_pos rfl]
      rw [decDigits]
      simp [h10]
    · have hz : ¬(n / 10 = 0) := by
        intro hc
        exact h10 (by omega)
      have hlt : n / 10 < fuel := by
        have hx : n / 10 < n := Nat.div_lt_self (by omega) (by omega)
        omega
      simp only [if_neg hz]
      rw [ih (n / 10) (Nat.digitChar (n % 10) :: ds) hlt]
      conv_rhs => rw [decDigits]
      simp [h10, List.append_assoc]

lemma repr_data (n : Nat) : (Nat.repr n).data = decDigits n := by
  have h := toDigitsCore_eq (n + 1) n [] (Nat.lt_succ_self n)
  simp only [Nat.repr, Nat.toDigits, List.asString]
  simpa using h

/-! ## The message format and its regex re-parse -/

lemma takeWhile_all_stop {p : Char → Bool} (xs : List Char) (y : Char) (ys : List Char)
    (hxs : ∀ x ∈ xs, p x = true) (hy : p y = false) :
    (xs ++ y :: ys).takeWhile p = xs := by
  induction xs with
  | nil => simp [List.takeWhile_cons, hy]
  | cons a asTail ih =>
    have ha := hxs a (by simp)
    have hrest := ih (fun x hx => hxs x (by simp [hx]))
    simp [List.takeWhile_cons, ha, hrest]

lemma dropWhile_all_stop {p : Char → Bool} (xs : List Char) (y : Char) (ys : List Char)
    (hxs : ∀ x ∈ xs, p x = true) (hy : p y = false) :
    (xs ++ y :: ys).dropWhile p = y :: ys := by
  induction xs with
  | nil => simp [List.dropWhile_cons, hy]
  | cons a asTail ih =>
    have ha := hxs a (by simp)
    have hrest := ih (fun x hx => hxs x (by simp [hx]))
    simp [List.dropWhile_cons, ha, hrest]

lemma matchAt_line (n : Nat) (tail : List Char) :
    matchAt ('L' :: 'i' :: 'n' :: 'e' :: ' ' :: (decDigits n ++ ':' :: tail)) = some n := by
  have hmem := decDigits_mem n
  have hdig : ∀ c ∈ decDigits n, jsDigitChar c = true :=
    fun c hc => digitChars_isDigit (hmem c hc)
  have hnsp : ∀ c ∈ decDigits n, jsRegexSpace c = false :=
    fun c hc => digitChars_not_space (hmem c hc)
  cases hdec : decDigits n with
  | nil => exact absurd hdec (decDigits_ne_nil n)
  | cons d D =>
    rw [hdec] at hdig hnsp
    have hd : jsRegexSpace d = false := hnsp d (by simp)
    have hsp : jsRegexSpace ' ' = true := by decide
    have h1 : List.takeWhile jsRegexSpace (' ' :: (d :: D ++ ':' :: tail)) = [' '] := by
      simp [List.takeWhile_cons, List.cons_append, hsp, hd]
    have h2 : List.dropWhile jsRegexSpace (' ' :: (d :: D ++ ':' :: tail))
        = d :: D ++ ':' :: tail := by
      simp [List.dropWhile_cons, List.cons_append, hsp, hd]
    have h3 : List.takeWhile jsDigitChar (d :: D ++ ':' :: tail) = d :: D :=
      takeWhile_all_stop (d :: D) ':' tail hdig (by decide)
    have h4 : List.dropWhile jsDigitChar (d :: D ++ ':' :: tail) = ':' :: tail :=
      dropWhile_all_stop (d :: D) ':' tail hdig (by decide)
    have hc5 : jsRegexSpace ':' = false := by decide
    have h5 : List.dropWhile jsRegexSpace (':' :: tail) = ':' :: tail := by
      simp [List.dropWhile_cons, hc5]
    simp only [matchAt]
    simp only [h1, h2, h3, h4, h5]
    simp
    rw [← hdec, digitsVal_decDigits]

lemma firstLineNum_msg (n : Nat) (s : String) (t : List Char) (hs : s.data = ':' :: t) :
    firstLineNum ("Line " ++ Nat.repr n ++ s) = some n := by
  have hdata : ("Line " ++ Nat.repr n ++ s).data
      = 'L' :: 'i' :: 'n' :: 'e' :: ' ' :: (decDigits n ++ ':' :: t) := by
    simp [String.data_append, repr_data, hs]
  rw [firstLineNum, hdata, scanLineNum]
  rw [matchAt_line n t]

lemma listIncludes_prefix (pat t : List Char) : listIncludes pat (pat ++ t) = true := by
  cases pat with
  | nil =>
    cases t with
    | nil => decide
    | cons c rest => simp [listIncludes, List.isPrefixOf]
  | cons p ps =>
    have hpre : (p :: ps).isPrefixOf ((p :: ps) ++ t) = true := by
      rw [List.isPrefixOf_iff_prefix]
      exact List.prefix_append (p :: ps) t
    rw [List.cons_append, listIncludes, ← List.cons_append, hpre]
    simp

lemma message_contains (n : Nat) (s : String) (t : List Char) (hs : s.data = ':' :: t) :
    jsIncludes ("Line " ++ Nat.repr n ++ s) ("Line " ++ Nat.repr n ++ ":") = true := by
  have hdata : ("Line " ++ Nat.repr n ++ s).data
      = ("Line " ++ Nat.repr n ++ ":").data ++ t := by
    simp [String.data_append, repr_data, hs]
  rw [jsIncludes, hdata, listIncludes_prefix]

lemma processLine_mem (language : String) (n : Nat) (line : String) (i : Issue)
    (hi : i ∈ (processLine language n line).1) :
    i = todoIssue n ∨ i = longLineIssue n ∨ i = looseEqIssue n ∨ i = debugIssue n := by
  simp only [processLine] at hi
  split_ifs at hi <;> simp at hi <;> tauto

lemma firstLineNum_issue (n : Nat) (i : Issue)
    (h : i = todoIssue n ∨ i = longLineIssue n ∨ i = looseEqIssue n ∨ i = debugIssue n) :
    firstLineNum i.message = some n := by
  rcases h with rfl | rfl | rfl | rfl
  · exact firstLineNum_msg n ": Consider resolving or removing TODOs before release." _ rfl
  · exact firstLineNum_msg n ": Break this line into smaller parts for readability." _ rfl
  · exact firstLineNum_msg n ": Use '===' instead of '==' to avoid unexpected type coercion." _ rfl
  · exact firstLineNum_msg n ": Remove debug prints/logs in production code." _ rfl

lemma filterMap_const_some {α β : Type} (f : α → Option β) (k : β) :
    ∀ (l : List α), (∀ i ∈ l, f i = some k) → l.filterMap f = List.replicate l.length k
  | [], _ => by simp
  | a :: l, h => by
    have ha := h a (by simp)
    have hrest := filterMap_const_some f k l (fun i hi => h i (by simp [hi]))
    simp [List.filterMap_cons, ha, hrest, List.replicate_succ]

lemma mem_analyzeLines_nums (language : String) (lines : List String) :
    ∀ (n0 m : Nat),
      (m ∈ (analyzeLines language n0 lines).1.filterMap (fun i => firstLineNum i.message)) ↔
      ∃ k, k < lines.length ∧ m = n0 + k ∧
        (processLine language (n0 + k) (lines.getD k "")).1 ≠ [] := by
  induction lines with
  | nil => intro n0 m; simp [analyzeLines]
  | cons line rest ih =>
    intro n0 m
    have hdelta : (processLine language n0 line).1.filterMap (fun i => firstLineNum i.message)
        = List.replicate (processLine language n0 line).1.length n0 :=
      filterMap_const_some _ _ _
        (fun i hi => firstLineNum_issue n0 i (processLine_mem language n0 line i hi))
    simp only [analyzeLines, List.filterMap_append, List.mem_append, hdelta,
      List.mem_replicate, ih (n0 + 1)]
    constructor
    · rintro (⟨hne, rfl⟩ | ⟨k, hk, rfl, hne⟩)
      · refine ⟨0, by simp, by simp, ?_⟩
        simpa only [List.getD_cons_zero, Nat.add_zero, ne_eq, List.length_eq_zero] using hne
      · refine ⟨k + 1, by simpa using hk, by omega, ?_⟩
        have hidx : n0 + 1 + k = n0 + (k + 1) := by omega
        rw [hidx] at hne
        simpa only [List.getD_cons_succ] using hne
    · rintro ⟨k, hk, rfl, hne⟩
      cases k with
      | zero =>
        left
        refine ⟨?_, by omega⟩
        simpa only [List.getD_cons_zero, Nat.add_zero, ne_eq, List.length_eq_zero] using hne
      | succ k =>
        right
        refine ⟨k, by simpa using hk, by omega, ?_⟩
        have hidx : n0 + (k + 1) = n0 + 1 + k := by omega
        rw [hidx] at hne
        simpa only [List.getD_cons_succ] using hne

lemma mem_dedupFirstAux (m : Nat) : ∀ (l seen : List Nat),
    m ∈ dedupFirstAux seen l ↔ m ∈ l ∧ m ∉ seen := by
  intro l
  induction l with
  | nil => intro seen; simp [dedupFirstAux]
  | cons a rest ih =>
    intro seen
    by_cases ha : a ∈ seen
    · rw [dedupFirstAux, if_pos ha, ih seen]
      constructor
      · rintro ⟨h1, h2⟩; exact ⟨List.mem_cons_of_mem a h1, h2⟩
      · rintro ⟨h1, h2⟩
        rcases List.mem_cons.1 h1 with rfl | h1
        · exact absurd ha h2
        · exact ⟨h1, h2⟩
    · rw [dedupFirstAux, if_neg ha]
      constructor
      · intro h
        rcases List.mem_cons.1 h with rfl | h
        · exact ⟨List.mem_cons_self m rest, ha⟩
        · rcases (ih (a :: seen)).1 h with ⟨h1, h2⟩
          refine ⟨List.mem_cons_of_mem a h1, fun hm => h2 (List.mem_cons_of_mem a hm)⟩
      · rintro ⟨h1, h2⟩
        rcases List.mem_cons.1 h1 with rfl | h1
        · exact List.mem_cons_self m _
        · by_cases hma : m = a
          · subst hma; exact List.mem_cons_self m _
          · exact List.mem_cons_of_mem a
              ((ih (a :: seen)).2 ⟨h1, fun hm => by
                rcases List.mem_cons.1 hm with h | h
                · exact hma h
                · exact h2 h⟩)

lemma mem_dedupFirst (m : Nat) (l : List Nat) : m ∈ dedupFirst l ↔ m ∈ l := by
  simp [dedupFirst, mem_dedupFirstAux]

/-- C9: every issue emitted for the Nth line (1-based, lines obtained by
splitting the code on the newline character) carries a message containing
the literal text `Line N:`, and the frontend's regex re-parse
`getErroredLineNumbers` applied to the report's issues recovers exactly the
set of line numbers that produced at least one issue. -/
theorem line_number_roundtrip (code language : String) :
    (∀ (n : Nat) (line : String), ∀ i ∈ (processLine language n line).1,
        jsIncludes i.message ("Line " ++ Nat.repr n ++ ":") = true) ∧
    (∀ m : Nat, m ∈ getErroredLineNumbers (analyzeCode code language).issues ↔
        ∃ k, k < (splitOnNewline code).length ∧ m = k + 1 ∧
          (processLine language (k + 1) ((splitOnNewline code).getD k "")).1 ≠ []) := by
  constructor
  · intro n line i hi
    rcases processLine_mem language n line i hi with rfl | rfl | rfl | rfl
    · exact message_contains n ": Consider resolving or removing TODOs before release." _ rfl
    · exact message_contains n ": Break this line into smaller parts for readability." _ rfl
    · exact message_contains n ": Use '===' instead of '==' to avoid unexpected type coercion." _ rfl
    · exact message_contains n ": Remove debug prints/logs in production code." _ rfl
  · intro m
    rw [getErroredLineNumbers, mem_dedupFirst]
    rw [show (analyzeCode code language).issues
        = (analyzeLines language 1 (splitOnNewline code)).1 from rfl]
    rw [mem_analyzeLines_nums language (splitOnNewline code) 1 m]
    constructor
    · rintro ⟨k, hk, rfl, hne⟩
      exact ⟨k, hk, by omega, by rwa [Nat.add_comm] at hne⟩
    · rintro ⟨k, hk, rfl, hne⟩
      exact ⟨k, hk, by omega, by rwa [Nat.add_comm] at hne⟩

/-- Witness for `line_number_roundtrip`: analysing "print(x)" flags line 1. -/
theorem line_number_roundtrip_witness :
    1 ∈ getErroredLineNumbers (analyzeCode "print(x)" "python").issues :=
  ((line_number_roundtrip "print(x)" "python").2 1).mpr
    ⟨0, by decide, by decide, by decide⟩

end CodeQuality
